import Mathlib

/-!
Verification of the book-recommendation engine (`app.py`).

The development shallowly embeds the data pipeline of the source file:

* `popularFiltered` / `activeFiltered` model the two threshold filters
  applied to the merged explicit-rating rows (lines 60-66 of the source);
* `processUsers` models the age imputation and range filter (lines 49-50);
* `getTop20Books` models the top-rated aggregation (lines 126-132);
* `recommendBooks` models the query path (lines 135-156), with the
  nearest-neighbour model abstracted as a function producing a
  `KnnAnswer` (sklearn `kneighbors` is external code; theorems that need
  its contract take it as an explicit hypothesis);
* `persistArtifacts` models the sequence of file-system operations the
  cache-persist step performs (lines 81-82).

Pandas/Python semantics used: `DataFrame.filter`-style boolean masks
become `List.filter`; `value_counts` becomes counting with `List.filter`
plus `List.length`; Python `list.sort` (a stable sort) is modelled by
`List.insertionSort`, which is stable with the non-strict comparison we
pass it; `zip` truncates to the shorter list, as `List.zip` does.
-/

/-- One row of the merged explicit-ratings table `ratings_books`
(explicit ratings joined to books on ISBN, source line 57): the book
title, the rating user and the rating value. Only these columns take
part in the threshold filters and the pivot. -/
structure RatingRow where
  title : String
  user : Nat
  rating : Nat
deriving DecidableEq, Repr

/-- Number of rows of `l` carrying title `t`: the value
`ratings_books["Book-Title"].value_counts()[t]` (source line 60). -/
def titleCount (l : List RatingRow) (t : String) : Nat :=
  (l.filter (fun r => r.title == t)).length

/-- Number of rows of `l` carrying user `u`: the value
`ratings_books["User-ID"].value_counts()[u]` (source line 64). -/
def userCount (l : List RatingRow) (u : Nat) : Nat :=
  (l.filter (fun r => r.user == u)).length

/-- The popularity filter (source lines 60-62): keep the rows whose
title has at least 35 occurrences in the whole merged table. -/
def popularFiltered (l : List RatingRow) : List RatingRow :=
  l.filter (fun r => decide (35 ≤ titleCount l r.title))

/-- The activity filter (source lines 64-66): on the already
title-filtered table, keep the rows whose user has at least 10
occurrences of that table. -/
def activeFiltered (l : List RatingRow) : List RatingRow :=
  (popularFiltered l).filter
    (fun r => decide (10 ≤ userCount (popularFiltered l) r.user))

/-- The merged table after both filters, the input of the pivot
(source line 69). -/
def ratingsBooksFinal (l : List RatingRow) : List RatingRow :=
  activeFiltered l

/-- Row keys of the pivot table: the distinct titles surviving both
filters (source line 69, `index="Book-Title"`). -/
def matrixRowTitles (l : List RatingRow) : List String :=
  ((ratingsBooksFinal l).map (fun r => r.title)).dedup

/-- Column keys of the pivot table: the distinct users surviving both
filters (source line 69, `columns="User-ID"`). -/
def matrixColUsers (l : List RatingRow) : List Nat :=
  ((ratingsBooksFinal l).map (fun r => r.user)).dedup

theorem titleCount_popularFiltered (l : List RatingRow) (t : String)
    (h : 35 ≤ titleCount l t) :
    titleCount (popularFiltered l) t = titleCount l t := by
  unfold titleCount popularFiltered
  rw [List.filter_filter]
  congr 1
  apply List.filter_congr
  intro r _
  cases hrt : (r.title == t) with
  | false => simp
  | true =>
    have : r.title = t := by simpa using hrt
    simp [this, h]

/-- The C1 invariant: a title that survives to the matrix has at least
35 ratings counted on the title-filtered table, and a user that
survives to the matrix has at least 10 ratings counted on the
title-filtered table. -/
theorem matrix_threshold_invariant (l : List RatingRow) (t : String) (u : Nat)
    (ht : t ∈ matrixRowTitles l) (hu : u ∈ matrixColUsers l) :
    35 ≤ titleCount (popularFiltered l) t ∧
      10 ≤ userCount (popularFiltered l) u := by
  constructor
  · rw [matrixRowTitles, List.mem_dedup] at ht
    obtain ⟨r, hr, hrt⟩ := List.mem_map.mp ht
    rw [ratingsBooksFinal, activeFiltered] at hr
    have hrp : r ∈ popularFiltered l := (List.mem_filter.mp hr).1
    have hc : 35 ≤ titleCount l r.title := by
      have := (List.mem_filter.mp hrp).2
      simpa using this
    rw [hrt] at hc
    rw [titleCount_popularFiltered l t hc]
    exact hc
  · rw [matrixColUsers, List.mem_dedup] at hu
    obtain ⟨r, hr, hru⟩ := List.mem_map.mp hu
    rw [ratingsBooksFinal, activeFiltered] at hr
    have := (List.mem_filter.mp hr).2
    rw [hru] at this
    simpa using this

/-- A concrete merged table: one title rated 35 times by three users
with 12, 12 and 11 ratings respectively, so the title passes the
popularity floor and every user passes the activity floor. -/
def sampleRatings : List RatingRow :=
  List.replicate 12 ⟨"T", 1, 8⟩ ++ List.replicate 12 ⟨"T", 2, 7⟩ ++
    List.replicate 11 ⟨"T", 3, 9⟩

theorem matrix_threshold_invariant_witness :
    35 ≤ titleCount (popularFiltered sampleRatings) "T" ∧
      10 ≤ userCount (popularFiltered sampleRatings) 1 :=
  matrix_threshold_invariant sampleRatings "T" 1 (by decide) (by decide)

/-- One row of the raw users table (source lines 49-51): the user id
and the age column, `none` standing for a missing (NaN) age. -/
structure UserRow where
  id : Nat
  age : Option ℚ
deriving DecidableEq, Repr

/-- The ages actually present in the users table; a pandas median
skips NaN entries, so these are the values it is taken over. -/
def presentAges (l : List UserRow) : List ℚ :=
  l.filterMap (fun u => u.age)

/-- The pandas `Series.median`: sort the non-missing values, take the
middle one for odd length and the mean of the two middle ones for even
length; `none` when no value is present (an all-NaN column has a NaN
median, which `fillna` then leaves in place). -/
def pandasMedian (xs : List ℚ) : Option ℚ :=
  let s := xs.insertionSort (fun a b => a ≤ b)
  if s.length = 0 then none
  else if s.length % 2 = 1 then some (s.getD (s.length / 2) 0)
  else some ((s.getD (s.length / 2 - 1) 0 + s.getD (s.length / 2) 0) / 2)

/-- `fillna` of one user row with the value `m` (used with the median
of the full column, source line 49). -/
def imputeAge (m : Option ℚ) (u : UserRow) : UserRow :=
  { u with age := u.age.orElse (fun _ => m) }

/-- Source line 49: `users_df["Age"] = users_df["Age"].fillna(users_df["Age"].median())`,
the median being computed over the full, unfiltered users table. -/
def imputedUsers (l : List UserRow) : List UserRow :=
  l.map (imputeAge (pandasMedian (presentAges l)))

/-- The boolean mask of source line 50: `(Age >= 5) & (Age <= 100)`;
a still-missing age compares as NaN, hence false. -/
def ageInRange (u : UserRow) : Bool :=
  match u.age with
  | some a => decide (5 ≤ a) && decide (a ≤ 100)
  | none => false

/-- Source lines 49-50 in order: impute with the full-table median
first, filter to the age range afterwards. -/
def processUsers (l : List UserRow) : List UserRow :=
  (imputedUsers l).filter ageInRange

/-- The C8 invariant: a user with missing age is imputed with the
median of the full user table (computed before any filtering), and
only afterwards is the range filter applied, so the user survives with
exactly that median age whenever the median lies in range; moreover
every surviving user has an age in range. -/
theorem age_imputed_with_full_median (l : List UserRow) (u : UserRow) (m : ℚ)
    (hu : u ∈ l) (hnone : u.age = none)
    (hmed : pandasMedian (presentAges l) = some m)
    (hlo : 5 ≤ m) (hhi : m ≤ 100) :
    (⟨u.id, some m⟩ : UserRow) ∈ processUsers l ∧
      ∀ v ∈ processUsers l, ∃ a, v.age = some a ∧ 5 ≤ a ∧ a ≤ 100 := by
  constructor
  · rw [processUsers, List.mem_filter]
    constructor
    · rw [imputedUsers]
      apply List.mem_map.mpr
      refine ⟨u, hu, ?_⟩
      rw [imputeAge, hmed, hnone]
      rfl
    · show ageInRange ⟨u.id, some m⟩ = true
      rw [ageInRange]
      simp only [Bool.and_eq_true, decide_eq_true_eq]
      exact ⟨hlo, hhi⟩
  · intro v hv
    have h := (List.mem_filter.mp hv).2
    rw [ageInRange] at h
    cases hva : v.age with
    | none => rw [hva] at h; simp at h
    | some a =>
      rw [hva] at h
      simp only [Bool.and_eq_true, decide_eq_true_eq] at h
      exact ⟨a, rfl, h.1, h.2⟩

/-- A concrete users table whose full-table median age (40) differs
from the median the filtered table would give (35): user 2 has an
out-of-range age 200 that participates in the imputation median and is
then dropped by the range filter. -/
def sampleUsers : List UserRow :=
  [⟨1, none⟩, ⟨2, some 200⟩, ⟨3, some 30⟩, ⟨4, some 40⟩]

theorem age_imputed_with_full_median_witness :
    (⟨1, some 40⟩ : UserRow) ∈ processUsers sampleUsers ∧
      ∀ v ∈ processUsers sampleUsers, ∃ a, v.age = some a ∧ 5 ≤ a ∧ a ≤ 100 :=
  age_imputed_with_full_median sampleUsers ⟨1, none⟩ 40 (by decide) rfl
    (by decide) (by decide) (by decide)

/-- One row of the books table as used by `get_top_20_books` (columns
ISBN, Book-Title, Book-Author, Image-URL-L; `none` stands for NaN). -/
structure Book where
  isbn : String
  title : String
  author : Option String
  image : Option String
deriving DecidableEq, Repr

/-- One row of the ratings table (columns User-ID, ISBN, Book-Rating). -/
structure Rating where
  user : Nat
  isbn : String
  rating : Nat
deriving DecidableEq, Repr

/-- One row of the table `ratings_df.merge(books_df, on="ISBN")`
restricted to the columns `get_top_20_books` aggregates. -/
structure MergedRow where
  title : String
  author : Option String
  image : Option String
  rating : Nat
deriving DecidableEq, Repr

/-- Source line 127: keep the explicit (nonzero) ratings only. -/
def explicitOnly (rs : List Rating) : List Rating :=
  rs.filter (fun r => r.rating != 0)

/-- Source line 128, `ratings_df.merge(books_df, on="ISBN")`: an inner
join; each rating row pairs with every book row of the same ISBN, left
row order first, right order within a left row. -/
def mergeRB (rs : List Rating) (books : List Book) : List MergedRow :=
  (explicitOnly rs).flatMap (fun r =>
    (books.filter (fun b => b.isbn == r.isbn)).map
      (fun b => ⟨b.title, b.author, b.image, r.rating⟩))

/-- Lexicographic comparison of character-code lists, the order pandas
sorts string group keys by. -/
def lexLE : List Nat → List Nat → Bool
  | [], _ => true
  | _ :: _, [] => false
  | x :: xs, y :: ys =>
    if x < y then true else if y < x then false else lexLE xs ys

/-- Ascending lexicographic comparison of titles by character codes. -/
def titleLE (a b : String) : Bool :=
  lexLE (a.data.map Char.toNat) (b.data.map Char.toNat)

/-- The group keys of `groupby("Book-Title")` (source line 128):
pandas sorts group keys ascending by default. -/
def sortedDistinctTitles (merged : List MergedRow) : List String :=
  ((merged.map (fun r => r.title)).dedup).insertionSort
    (fun a b => titleLE a b = true)

/-- One row of the aggregated table `get_top_20_books` builds. -/
structure TopBookRow where
  title : String
  numRatings : Nat
  author : Option String
  image : Option String
deriving DecidableEq, Repr

/-- The aggregation of one title group (source lines 128-130):
`count` of the rating column, and `first`, which in pandas groupby is
the first non-null entry of the group, for author and image. -/
def groupAggRow (merged : List MergedRow) (t : String) : TopBookRow :=
  let rows := merged.filter (fun r => r.title == t)
  ⟨t, rows.length, (rows.filterMap (fun r => r.author)).head?,
    (rows.filterMap (fun r => r.image)).head?⟩

/-- The aggregated table, one row per group key in groupby key order. -/
def groupedBooks (merged : List MergedRow) : List TopBookRow :=
  (sortedDistinctTitles merged).map (groupAggRow merged)

/-- Comparison used by `sort_values("num_ratings", ascending=False)`:
the left row may come before the right row when its count is at least
as large. -/
def countGE (a b : TopBookRow) : Prop :=
  b.numRatings ≤ a.numRatings

instance : DecidableRel countGE :=
  fun a b => inferInstanceAs (Decidable (b.numRatings ≤ a.numRatings))

instance : IsTotal TopBookRow countGE :=
  ⟨fun a b => (le_total b.numRatings a.numRatings).imp id id⟩

instance : IsTrans TopBookRow countGE :=
  ⟨fun _ _ _ hab hbc => le_trans hbc hab⟩

/-- Source line 131, `sort_values("num_ratings", ascending=False)`,
modelled as a stable descending sort (pandas defaults to an unstable
quicksort; the stable model is the most favourable reading for an
order claim and leaves the pre-sort group order visible among ties). -/
def sortValuesByCount (l : List TopBookRow) : List TopBookRow :=
  l.insertionSort countGE

/-- Source lines 126-132: filter to explicit ratings, merge with the
books table, aggregate per title, sort by count descending and keep
the first 20 rows. -/
def getTop20Books (rs : List Rating) (books : List Book) : List TopBookRow :=
  (sortValuesByCount (groupedBooks (mergeRB rs books))).take 20

/-- Modelled from the spec: the spec sentence for `get_top_rated`
demands ties among equal counts be broken by original row encounter
order via a stable sort, so this variant aggregates groups in first
encounter order of the titles instead of sorted key order. It exists
only to be compared with `getTop20Books`, which is the translation of
the source. -/
def encounterDistinctTitles (merged : List MergedRow) : List String :=
  merged.foldl (fun acc r => if r.title ∈ acc then acc else acc ++ [r.title]) []

/-- Modelled from the spec: `get_top_rated(n)` with encounter-order
groups and a stable descending sort, the behaviour the spec sentence
describes. -/
def specTopRated (rs : List Rating) (books : List Book) (n : Nat) : List TopBookRow :=
  (((encounterDistinctTitles (mergeRB rs books)).map
      (groupAggRow (mergeRB rs books))).insertionSort countGE).take n

/-- Two books whose titles are in the opposite order of their first
encounter in the ratings: the rating rows meet title "b" first, while
groupby orders the groups as "a", "b". Both titles have one explicit
rating, so their counts tie. -/
def tieBooks : List Book :=
  [⟨"i1", "b", some "A1", some "I1"⟩, ⟨"i2", "a", some "A2", some "I2"⟩]

/-- Ratings meeting ISBN "i1" (title "b") before ISBN "i2" (title "a"). -/
def tieRatings : List Rating :=
  [⟨1, "i1", 5⟩, ⟨1, "i2", 5⟩]

/-- Counterexample to C7: on tied counts the code returns the titles
in groupby key order ("a" before "b"), while the encounter-order
tie-break the claim describes would return "b" before "a". -/
theorem top_rated_tiebreak_counterexample :
    (getTop20Books tieRatings tieBooks).map (fun r => r.title) = ["a", "b"] ∧
      (specTopRated tieRatings tieBooks 20).map (fun r => r.title) = ["b", "a"] ∧
      getTop20Books tieRatings tieBooks ≠ specTopRated tieRatings tieBooks 20 := by
  decide

/-- Amended C7: `get_top_20_books` counts explicit ratings per title
over the joined dataset, returns at most 20 rows ordered by count
non-increasing, and fills author and image with the first non-null
value of the joined rows of each title; the tie order among equal
counts follows the groupby title order, not row encounter order. -/
theorem top_rated_amended (rs : List Rating) (books : List Book) :
    (getTop20Books rs books).length ≤ 20 ∧
      (getTop20Books rs books).Pairwise countGE ∧
      ∀ row ∈ getTop20Books rs books,
        row.numRatings =
            ((mergeRB rs books).filter (fun r => r.title == row.title)).length ∧
          row.author =
            (((mergeRB rs books).filter (fun r => r.title == row.title)).filterMap
                (fun r => r.author)).head? ∧
          row.image =
            (((mergeRB rs books).filter (fun r => r.title == row.title)).filterMap
                (fun r => r.image)).head? := by
  refine ⟨List.length_take_le 20 _, ?_, ?_⟩
  · exact ((List.sorted_insertionSort countGE _).sublist (List.take_sublist _ _))
  · intro row hrow
    have hmem : row ∈ groupedBooks (mergeRB rs books) := by
      have h1 : row ∈ sortValuesByCount (groupedBooks (mergeRB rs books)) :=
        List.take_subset _ _ hrow
      exact (List.mem_insertionSort countGE).mp h1
    obtain ⟨t, _, hagg⟩ := List.mem_map.mp hmem
    refine ⟨?_, ?_, ?_⟩ <;> rw [← hagg] <;> simp [groupAggRow]

theorem top_rated_amended_witness :
    (getTop20Books tieRatings tieBooks).length ≤ 20 ∧
      (getTop20Books tieRatings tieBooks).Pairwise countGE ∧
      ∀ row ∈ getTop20Books tieRatings tieBooks,
        row.numRatings =
            ((mergeRB tieRatings tieBooks).filter
                (fun r => r.title == row.title)).length ∧
          row.author =
            (((mergeRB tieRatings tieBooks).filter
                  (fun r => r.title == row.title)).filterMap
                (fun r => r.author)).head? ∧
          row.image =
            (((mergeRB tieRatings tieBooks).filter
                  (fun r => r.title == row.title)).filterMap
                (fun r => r.image)).head? :=
  top_rated_amended tieRatings tieBooks

/-- The answer of one `model_knn.kneighbors(vec, n_neighbors=n)` call:
the distances and the row indices of the nearest rows, both in
distance-ascending order as sklearn returns them. The index itself is
external library code, so theorems about the query path quantify over
the answer and state any contract of the index they rely on as an
explicit hypothesis. -/
structure KnnAnswer where
  distances : List ℚ
  indices : List Nat
deriving DecidableEq, Repr

/-- One row of `book_info` (source lines 120-122): a pivot title with
the author and large-image columns brought in by the left merge,
`none` standing for NaN where no book row matched. -/
structure BookInfoRow where
  title : String
  author : Option String
  image : Option String
deriving DecidableEq, Repr

/-- Source line 120, `drop_duplicates(subset="Book-Title")`: keep the
first book row of each title. -/
def dedupByTitle (books : List Book) : List Book :=
  books.foldl
    (fun acc b => if acc.any (fun c => c.title == b.title) then acc
      else acc ++ [b]) []

/-- The row the left merge of source line 122 produces for one pivot
title: the first deduplicated book with that title if any, otherwise a
row with NaN author and image. -/
def infoRowFor (books : List Book) (t : String) : BookInfoRow :=
  match (dedupByTitle books).find? (fun b => b.title == t) with
  | some b => ⟨t, b.author, b.image⟩
  | none => ⟨t, none, none⟩

/-- Source lines 121-122: `book_info`, one row per pivot title in
pivot order, left-merged with the deduplicated books table. -/
def mkBookInfo (pivotIndex : List String) (books : List Book) : List BookInfoRow :=
  pivotIndex.map (infoRowFor books)

/-- Source line 148, `book_info[book_info["Book-Title"] == title]`
followed by the `.values[0]` reads: the first `book_info` row carrying
the title, when one exists. -/
def lookupInfo (bi : List BookInfoRow) (t : String) : Option BookInfoRow :=
  bi.find? (fun r => r.title == t)

/-- Comparison used by `recommendation_data.sort(key=lambda x: x[1],
reverse=True)` (source line 144): the left pair may come before the
right pair when its similarity is at least as large. Python sort is
stable, which `List.insertionSort` with this non-strict comparison
reproduces. -/
def simGE (a b : Nat × ℚ) : Prop :=
  b.2 ≤ a.2

instance : DecidableRel simGE :=
  fun a b => inferInstanceAs (Decidable (b.2 ≤ a.2))

instance : IsTotal (Nat × ℚ) simGE :=
  ⟨fun a b => (le_total b.2 a.2).imp id id⟩

instance : IsTrans (Nat × ℚ) simGE :=
  ⟨fun _ _ _ hab hbc => le_trans hbc hab⟩

/-- Source line 141: `similarity_scores = 1 - distances.flatten()[1:]`,
the distances after the positional drop of the first one, each
converted to a similarity. -/
def similarityScores (ans : KnnAnswer) : List ℚ :=
  ans.distances.tail.map (fun d => 1 - d)

/-- Source line 143: `list(zip(indices.flatten()[1:], similarity_scores))`. -/
def recommendationData (ans : KnnAnswer) : List (Nat × ℚ) :=
  ans.indices.tail.zip (similarityScores ans)

/-- Source line 144: the candidate list sorted by similarity
descending with Python's stable sort. -/
def sortedRecommendationData (ans : KnnAnswer) : List (Nat × ℚ) :=
  (recommendationData ans).insertionSort simGE

/-- The `n_neighbors` argument of the `kneighbors` call on source line
139: `num_recommendations + 1`, one extra slot for the expected
self-match. -/
def requestedNeighbors (k : Nat) : Nat :=
  k + 1

/-- The `n_neighbors=20` passed when the model is fitted (source line
77); it is the fit-time default of the estimator, not what the query
path requests. -/
def modelDefaultNNeighbors : Nat :=
  20

/-- One recommendation dictionary (source lines 150-155). -/
structure RecItem where
  title : String
  author : String
  image : String
  rank : Nat
deriving DecidableEq, Repr

/-- The loop of source lines 145-155: walk the trimmed candidate list
with a 1-based rank counter; look each row index up in the pivot and
in `book_info`, appending a recommendation when the info row exists
(the rank counter advances either way, as `enumerate` does). -/
def buildRecs (pivotIndex : List String) (bi : List BookInfoRow) :
    Nat → List (Nat × ℚ) → List RecItem
  | _, [] => []
  | rank, (idx, _) :: rest =>
    let t := pivotIndex.getD idx ""
    match lookupInfo bi t with
    | some info =>
      ⟨t, info.author.getD "Unknown", info.image.getD "No Image", rank⟩ ::
        buildRecs pivotIndex bi (rank + 1) rest
    | none => buildRecs pivotIndex bi (rank + 1) rest

/-- Source lines 135-156, `recommend_books`: answer `(None, [])` when
the title is not a pivot row key; otherwise query the model with
`num_recommendations + 1` neighbours from the row of the title, drop
the first answer positionally, convert distances to similarities, sort
descending, trim to the requested count and build the ranked items. -/
def recommendBooks (bookName : String) (pivotIndex : List String)
    (bi : List BookInfoRow) (model : Nat → Nat → KnnAnswer)
    (numRecommendations : Nat) : Option String × List RecItem :=
  if bookName ∈ pivotIndex then
    (some ("Recommendations for " ++ bookName),
      buildRecs pivotIndex bi 1
        ((sortedRecommendationData
            (model (pivotIndex.indexOf bookName)
              (requestedNeighbors numRecommendations))).take
          numRecommendations))
  else (none, [])

/-- The C2 property: a title that is not a pivot row key yields the
not-found result `(None, [])` for every requested count, every info
table and every model; the check precedes any indexing, so in the
embedding the function is total and no failure path exists. -/
theorem recommend_unknown_title (bookName : String) (piv : List String)
    (bi : List BookInfoRow) (model : Nat → Nat → KnnAnswer) (k : Nat)
    (h : bookName ∉ piv) :
    recommendBooks bookName piv bi model k = (none, []) := by
  rw [recommendBooks, if_neg h]

theorem recommend_unknown_title_witness :
    recommendBooks "unknown-title-xyz" ["A", "B"] [] (fun _ _ => ⟨[], []⟩) 5 =
      (none, []) :=
  recommend_unknown_title "unknown-title-xyz" ["A", "B"] []
    (fun _ _ => ⟨[], []⟩) 5 (by decide)

/-- The C5 property: the self-match removal is positional. The
candidate list is exactly the tail of the zipped index answer - the
first returned neighbour is discarded whatever its row index is - and
(when the index answers with as many distances as indices) the
candidate row indices are exactly all returned indices but the first,
so a query row index that is not first survives into the candidates. -/
theorem positional_self_match_drop (ans : KnnAnswer)
    (h : ans.distances.length = ans.indices.length) :
    recommendationData ans =
        (ans.indices.zip (ans.distances.map (fun d => 1 - d))).tail ∧
      (recommendationData ans).map Prod.fst = ans.indices.tail := by
  constructor
  · rw [recommendationData, similarityScores]
    obtain ⟨ds, is⟩ := ans
    cases ds <;> cases is <;> simp [List.zip_nil_right]
  · rw [recommendationData, similarityScores]
    apply List.map_fst_zip
    simp [h]

/-- Witness for C5 at an answer whose tied-distance self-match (row 0
at distance 0) is returned second, not first: the candidates keep row
0 and drop row 3. -/
theorem positional_self_match_drop_witness :
    recommendationData ⟨[0, 0, (1 : ℚ) / 2], [3, 0, 2]⟩ =
        (([3, 0, 2] : List Nat).zip
          (([0, 0, (1 : ℚ) / 2] : List ℚ).map (fun d => 1 - d))).tail ∧
      (recommendationData ⟨[0, 0, (1 : ℚ) / 2], [3, 0, 2]⟩).map Prod.fst =
        ([3, 0, 2] : List Nat).tail :=
  positional_self_match_drop ⟨[0, 0, (1 : ℚ) / 2], [3, 0, 2]⟩ (by decide)

/-- Counterexample to C6: the query path requests
`num_recommendations + 1` neighbours, not the fit-time fan-out of 20 -
at the default `num_recommendations = 5` the request is for 6
neighbours. -/
theorem fanout_counterexample :
    requestedNeighbors 5 = 6 ∧ modelDefaultNNeighbors = 20 ∧
      requestedNeighbors 5 ≠ modelDefaultNNeighbors := by
  decide

theorem buildRecs_length_le (piv : List String) (bi : List BookInfoRow) :
    ∀ (cands : List (Nat × ℚ)) (r : Nat),
      (buildRecs piv bi r cands).length ≤ cands.length := by
  intro cands
  induction cands with
  | nil => intro r; simp [buildRecs]
  | cons p rest ih =>
    intro r
    obtain ⟨idx, sim⟩ := p
    rw [buildRecs]
    cases lookupInfo bi (piv.getD idx "") with
    | some info =>
      simpa using Nat.succ_le_succ (ih (r + 1))
    | none =>
      simp only [List.length_cons]
      exact le_trans (ih (r + 1)) (Nat.le_succ _)

/-- Amended C6: the recommendation path requests exactly
`k + 1` neighbours for a query asking for `k` recommendations
(reserving one slot for the expected self-match, and overriding the
fit-time default of 20), and after dropping the first answer it trims
so that at most `k` items are returned. -/
theorem fanout_amended (k : Nat) (bookName : String) (piv : List String)
    (bi : List BookInfoRow) (model : Nat → Nat → KnnAnswer) :
    requestedNeighbors k = k + 1 ∧
      ((recommendBooks bookName piv bi model k).2).length ≤ k := by
  refine ⟨rfl, ?_⟩
  rw [recommendBooks]
  by_cases h : bookName ∈ piv
  · rw [if_pos h]
    exact le_trans (buildRecs_length_le piv bi _ 1) (List.length_take_le k _)
  · rw [if_neg h]
    exact Nat.zero_le k

theorem infoRowFor_title (books : List Book) (t : String) :
    (infoRowFor books t).title = t := by
  rw [infoRowFor]
  cases (dedupByTitle books).find? (fun b => b.title == t) <;> rfl

theorem lookup_mkBookInfo_isSome (piv : List String) (books : List Book)
    (t : String) (ht : t ∈ piv) :
    (lookupInfo (mkBookInfo piv books) t).isSome = true := by
  induction piv with
  | nil => cases ht
  | cons a as ih =>
    rw [mkBookInfo, List.map_cons, lookupInfo]
    by_cases hat : ((infoRowFor books a).title == t) = true
    · simp [List.find?_cons, hat]
    · have hta : t ≠ a := by
        intro he
        apply hat
        rw [infoRowFor_title, he]
        exact beq_self_eq_true a
      have ht2 : t ∈ as := by
        cases List.mem_cons.mp ht with
        | inl h => exact absurd h hta
        | inr h => exact h
      have hih := ih ht2
      rw [lookupInfo, mkBookInfo] at hih
      simpa [List.find?_cons, hat] using hih

theorem getD_mem_of_lt (l : List String) (i : Nat) (h : i < l.length) :
    l.getD i "" ∈ l := by
  rw [List.getD_eq_getElem l "" h]
  exact List.getElem_mem h

theorem buildRecs_ranks (piv : List String) (bi : List BookInfoRow) :
    ∀ (cands : List (Nat × ℚ)) (r : Nat),
      (∀ p ∈ cands, (lookupInfo bi (piv.getD p.1 "")).isSome = true) →
      (buildRecs piv bi r cands).map (fun it => it.rank) =
        List.range' r cands.length := by
  intro cands
  induction cands with
  | nil => intro r _; rfl
  | cons p rest ih =>
    intro r h
    obtain ⟨idx, sim⟩ := p
    have hp := h (idx, sim) (by simp)
    rw [buildRecs]
    cases hl : lookupInfo bi (piv.getD idx "") with
    | none =>
      rw [hl] at hp
      simp at hp
    | some info =>
      have htail : ∀ p ∈ rest, (lookupInfo bi (piv.getD p.1 "")).isSome = true :=
        fun p hp => h p (List.mem_cons_of_mem _ hp)
      simp [List.range'_succ, ih (r + 1) htail]

/-- The C3 property: when the queried title is a pivot row key and the
index answers with valid row indices, the result list holds at most
`k` items and its ranks are exactly `1, 2, ..., len(items)`,
contiguous and strictly increasing. -/
theorem recommend_count_and_ranks (bookName : String) (piv : List String)
    (books : List Book) (model : Nat → Nat → KnnAnswer) (k : Nat)
    (hmem : bookName ∈ piv)
    (hvalid : ∀ i ∈ (model (piv.indexOf bookName) (requestedNeighbors k)).indices,
      i < piv.length) :
    ((recommendBooks bookName piv (mkBookInfo piv books) model k).2).length ≤ k ∧
      ((recommendBooks bookName piv (mkBookInfo piv books) model k).2).map
          (fun it => it.rank) =
        List.range' 1
          ((recommendBooks bookName piv (mkBookInfo piv books) model k).2).length := by
  rw [recommendBooks, if_pos hmem]
  have hall : ∀ p ∈ (sortedRecommendationData
        (model (piv.indexOf bookName) (requestedNeighbors k))).take k,
      (lookupInfo (mkBookInfo piv books) (piv.getD p.1 "")).isSome = true := by
    intro p hp
    apply lookup_mkBookInfo_isSome
    apply getD_mem_of_lt
    apply hvalid
    have h1 : p ∈ sortedRecommendationData
        (model (piv.indexOf bookName) (requestedNeighbors k)) :=
      List.take_subset _ _ hp
    have h2 : p ∈ recommendationData
        (model (piv.indexOf bookName) (requestedNeighbors k)) := by
      rw [sortedRecommendationData] at h1
      exact (List.mem_insertionSort simGE).mp h1
    have h3 : p.1 ∈ (model (piv.indexOf bookName) (requestedNeighbors k)).indices.tail := by
      obtain ⟨i, s⟩ := p
      exact (List.of_mem_zip h2).1
    exact List.mem_of_mem_tail h3
  have hranks := buildRecs_ranks piv (mkBookInfo piv books) _ 1 hall
  have hlen : (buildRecs piv (mkBookInfo piv books) 1
      ((sortedRecommendationData
          (model (piv.indexOf bookName) (requestedNeighbors k))).take k)).length =
      ((sortedRecommendationData
          (model (piv.indexOf bookName) (requestedNeighbors k))).take k).length := by
    have h := congrArg List.length hranks
    simpa using h
  constructor
  · exact le_trans (buildRecs_length_le _ _ _ _) (List.length_take_le _ _)
  · show (buildRecs piv (mkBookInfo piv books) 1 _).map (fun it => it.rank) = _
    rw [hranks, hlen]

/-- Witness data for the C3 and C10 theorems: a three-row pivot and an
index answer with valid, distinct rows. -/
def wModel : Nat → Nat → KnnAnswer :=
  fun _ _ => ⟨[0, (1 : ℚ) / 4, (1 : ℚ) / 2], [0, 2, 1]⟩

theorem recommend_count_and_ranks_witness :
    ((recommendBooks "A" ["A", "B", "C"]
          (mkBookInfo ["A", "B", "C"] tieBooks) wModel 5).2).length ≤ 5 ∧
      ((recommendBooks "A" ["A", "B", "C"]
            (mkBookInfo ["A", "B", "C"] tieBooks) wModel 5).2).map
          (fun it => it.rank) =
        List.range' 1
          ((recommendBooks "A" ["A", "B", "C"]
              (mkBookInfo ["A", "B", "C"] tieBooks) wModel 5).2).length :=
  recommend_count_and_ranks "A" ["A", "B", "C"] tieBooks wModel 5
    (by decide) (by decide)

/-- The C4 property: the sorted candidate list is ordered with
similarity non-increasing (so similarity is non-increasing as the
1-based rank increases along it), and it is a permutation of the
retained index-distance pairs with each distance `d` converted to
similarity exactly `1 - d`. -/
theorem similarity_conversion_and_order (ans : KnnAnswer) :
    (sortedRecommendationData ans).Pairwise simGE ∧
      (sortedRecommendationData ans).Perm
        ((ans.indices.tail.zip ans.distances.tail).map
          (fun p => (p.1, 1 - p.2))) := by
  constructor
  · exact List.sorted_insertionSort simGE _
  · have h2 : recommendationData ans =
        (ans.indices.tail.zip ans.distances.tail).map (fun p => (p.1, 1 - p.2)) := by
      rw [recommendationData, similarityScores, List.zip_map_right]
      rfl
    exact h2 ▸ List.perm_insertionSort simGE (recommendationData ans)

theorem map_fst_zip_take {α β : Type} :
    ∀ (l1 : List α) (l2 : List β),
      (l1.zip l2).map Prod.fst = l1.take l2.length := by
  intro l1
  induction l1 with
  | nil => intro l2; simp
  | cons a as ih =>
    intro l2
    cases l2 with
    | nil => simp
    | cons b bs => simp [ih]

theorem buildRecs_titles_sublist (piv : List String) (bi : List BookInfoRow) :
    ∀ (cands : List (Nat × ℚ)) (r : Nat),
      ((buildRecs piv bi r cands).map (fun it => it.title)).Sublist
        (cands.map (fun p => piv.getD p.1 "")) := by
  intro cands
  induction cands with
  | nil => intro r; simp [buildRecs]
  | cons p rest ih =>
    intro r
    obtain ⟨idx, sim⟩ := p
    rw [buildRecs]
    cases lookupInfo bi (piv.getD idx "") with
    | some info =>
      simp only [List.map_cons]
      exact List.Sublist.cons₂ _ (ih (r + 1))
    | none =>
      simp only [List.map_cons]
      exact List.Sublist.cons _ (ih (r + 1))

/-- The C10 property: with distinct pivot row keys and an index answer
whose row indices are distinct and in range (the sklearn contract:
`kneighbors` returns distinct valid row numbers), every returned item
carries a title that is a pivot row key, and the returned titles are
pairwise distinct. -/
theorem recommend_titles_in_matrix (bookName : String) (piv : List String)
    (books : List Book) (model : Nat → Nat → KnnAnswer) (k : Nat)
    (hpiv : piv.Nodup)
    (hidx : (model (piv.indexOf bookName) (requestedNeighbors k)).indices.Nodup)
    (hvalid : ∀ i ∈ (model (piv.indexOf bookName) (requestedNeighbors k)).indices,
      i < piv.length) :
    (∀ it ∈ (recommendBooks bookName piv (mkBookInfo piv books) model k).2,
        it.title ∈ piv) ∧
      (((recommendBooks bookName piv (mkBookInfo piv books) model k).2).map
          (fun it => it.title)).Nodup := by
  by_cases hmem : bookName ∈ piv
  · rw [recommendBooks, if_pos hmem]
    have hcand_idx : ∀ p ∈ (sortedRecommendationData
          (model (piv.indexOf bookName) (requestedNeighbors k))).take k,
        p.1 ∈ (model (piv.indexOf bookName) (requestedNeighbors k)).indices := by
      intro p hp
      have h1 : p ∈ sortedRecommendationData
          (model (piv.indexOf bookName) (requestedNeighbors k)) :=
        List.take_subset _ _ hp
      have h2 : p ∈ recommendationData
          (model (piv.indexOf bookName) (requestedNeighbors k)) := by
        rw [sortedRecommendationData] at h1
        exact (List.mem_insertionSort simGE).mp h1
      have h3 : p.1 ∈ (model (piv.indexOf bookName)
          (requestedNeighbors k)).indices.tail := by
        obtain ⟨i, s⟩ := p
        exact (List.of_mem_zip h2).1
      exact List.mem_of_mem_tail h3
    have hsub := buildRecs_titles_sublist piv (mkBookInfo piv books)
      ((sortedRecommendationData
          (model (piv.indexOf bookName) (requestedNeighbors k))).take k) 1
    constructor
    · intro it hit
      have h1 : it.title ∈ (buildRecs piv (mkBookInfo piv books) 1
          ((sortedRecommendationData
              (model (piv.indexOf bookName) (requestedNeighbors k))).take k)).map
            (fun it => it.title) :=
        List.mem_map_of_mem _ hit
      have h2 := hsub.subset h1
      obtain ⟨p, hp, he⟩ := List.mem_map.mp h2
      rw [← he]
      exact getD_mem_of_lt piv p.1 (hvalid _ (hcand_idx p hp))
    · apply List.Nodup.sublist hsub
      have hfst : ((sortedRecommendationData
            (model (piv.indexOf bookName) (requestedNeighbors k))).take k).map
              (fun p : Nat × ℚ => piv.getD p.1 "") =
          (((sortedRecommendationData
              (model (piv.indexOf bookName) (requestedNeighbors k))).take k).map
            Prod.fst).map (fun i => piv.getD i "") := by
        rw [List.map_map]
        rfl
      rw [hfst]
      have hfst_nodup : (((sortedRecommendationData
            (model (piv.indexOf bookName) (requestedNeighbors k))).take k).map
          Prod.fst).Nodup := by
        rw [List.map_take]
        apply List.Nodup.sublist (List.take_sublist _ _)
        have hperm : ((sortedRecommendationData
              (model (piv.indexOf bookName) (requestedNeighbors k))).map
            Prod.fst).Perm
            ((recommendationData
                (model (piv.indexOf bookName) (requestedNeighbors k))).map
              Prod.fst) :=
          (List.perm_insertionSort simGE _).map Prod.fst
        rw [hperm.nodup_iff]
        rw [recommendationData, map_fst_zip_take]
        apply List.Nodup.sublist (List.take_sublist _ _)
        exact List.Nodup.sublist (List.tail_sublist _) hidx
      apply List.Nodup.map_on ?_ hfst_nodup
      intro i hi j hj hij
      have hi2 : i ∈ (model (piv.indexOf bookName) (requestedNeighbors k)).indices := by
        obtain ⟨p, hp, he⟩ := List.mem_map.mp hi
        exact he ▸ hcand_idx p hp
      have hj2 : j ∈ (model (piv.indexOf bookName) (requestedNeighbors k)).indices := by
        obtain ⟨p, hp, he⟩ := List.mem_map.mp hj
        exact he ▸ hcand_idx p hp
      have hi3 : i < piv.length := hvalid i hi2
      have hj3 : j < piv.length := hvalid j hj2
      rw [List.getD_eq_getElem piv "" hi3, List.getD_eq_getElem piv "" hj3] at hij
      have := (List.Nodup.getElem_inj_iff hpiv).mp hij
      exact this
  · rw [recommendBooks, if_neg hmem]
    exact ⟨fun it hit => absurd hit (by simp), by simp⟩

theorem recommend_titles_in_matrix_witness :
    (∀ it ∈ (recommendBooks "B" ["A", "B", "C"]
          (mkBookInfo ["A", "B", "C"] tieBooks) wModel 2).2,
        it.title ∈ ["A", "B", "C"]) ∧
      (((recommendBooks "B" ["A", "B", "C"]
            (mkBookInfo ["A", "B", "C"] tieBooks) wModel 2).2).map
          (fun it => it.title)).Nodup :=
  recommend_titles_in_matrix "B" ["A", "B", "C"] tieBooks wModel 2
    (by decide) (by decide) (by decide)

/-- A file-system operation the persistence step can perform: a write
of content to a path, or an atomic rename of one path onto another. -/
inductive FileOp where
  | write (path : String)
  | rename (src dst : String)
deriving DecidableEq, Repr

/-- The final path of the cached pivot artifact (source line 18). -/
def bookPivotPath : String :=
  "book_user_matrix.pkl"

/-- The final path of the cached model artifact (source line 19). -/
def modelKnnPath : String :=
  "knn_model.pkl"

/-- The paths a later load reads the artifacts from (source lines 22-24). -/
def finalArtifactPaths : List String :=
  [bookPivotPath, modelKnnPath]

/-- The file operations of the persistence step (source lines 81-82):
`pd.to_pickle(book_pivot, "book_user_matrix.pkl")` and
`joblib.dump(model_knn, "knn_model.pkl")` each open their destination
path and write to it directly; no temporary file and no rename is
involved. -/
def persistArtifacts : List FileOp :=
  [FileOp.write bookPivotPath, FileOp.write modelKnnPath]

/-- The atomic-persistence discipline C9 claims: no write ever targets
a final artifact path, and every final artifact path receives its
content through a rename. -/
def atomicPersist (trace : List FileOp) (finals : List String) : Prop :=
  (∀ op ∈ trace, ∀ p ∈ finals, op ≠ FileOp.write p) ∧
    ∀ p ∈ finals, ∃ src, FileOp.rename src p ∈ trace

/-- Counterexample to C9: the persistence step writes the pivot
artifact directly to its final path (and performs no rename at all),
so it is not atomic in the claimed sense. -/
theorem persist_not_atomic :
    ¬ atomicPersist persistArtifacts finalArtifactPaths := by
  intro h
  exact h.1 (FileOp.write bookPivotPath) (by simp [persistArtifacts])
    bookPivotPath (by simp [finalArtifactPaths]) rfl

/-- Amended C9: each artifact is written directly to the final path a
later load reads it from, and the persistence step performs no rename;
a crash mid-write can therefore leave a partial file at the final
path. -/
theorem persist_direct_writes :
    (∀ p ∈ finalArtifactPaths, FileOp.write p ∈ persistArtifacts) ∧
      ∀ op ∈ persistArtifacts, ∀ s d, op ≠ FileOp.rename s d := by
  constructor
  · intro p hp
    rcases List.mem_cons.mp hp with h | h
    · rw [h]; simp [persistArtifacts]
    · rcases List.mem_cons.mp h with h2 | h2
      · rw [h2]; simp [persistArtifacts]
      · cases h2
  · intro op hop s d
    rcases List.mem_cons.mp hop with h | h
    · rw [h]; intro he; cases he
    · rcases List.mem_cons.mp h with h2 | h2
      · rw [h2]; intro he; cases he
      · cases h2
